import Mathlib

/-!
Verification of the openclaw task scheduler (skills/task-automator scheduler
module) and, where the cron service implementation is absent from the tree,
of the cron service store and startup catch-up engine as described by the
design document.

Timestamps are modelled as integers (milliseconds since the Unix epoch),
matching the JavaScript `Date.getTime()` representation; schedule strings
are modelled as Lean strings; a thrown `Error` is modelled as
`Except.error` carrying the error message.
-/

namespace Openclaw

/-! ## Schedule strings (scheduler module)

The scheduler accepts either an interval string matching the regular
expression `^\d+[smhd]$` or (anything else is treated as) a 5-field cron
expression.
-/

/-- One of the four interval unit characters accepted by the regular
expression `[smhd]`. -/
def isUnitChar (c : Char) : Bool :=
  c = 's' || c = 'm' || c = 'h' || c = 'd'

/-- `parseInt` on a non-empty digit string. -/
def digitsToNat (cs : List Char) : Nat :=
  cs.foldl (fun acc c => acc * 10 + (c.toNat - 48)) 0

/-- The match of `^(\d+)([smhd])$` against `s`: the numeric amount and the
unit character, or `none` when the string does not match. -/
def intervalMatch (s : String) : Option (Nat × Char) :=
  match s.data.reverse with
  | [] => none
  | u :: revDigits =>
    let digits := revDigits.reverse
    if isUnitChar u && !digits.isEmpty && digits.all Char.isDigit then
      some (digitsToNat digits, u)
    else
      none

/-- `isIntervalSchedule`: tests the schedule string against `^\d+[smhd]$`
(e.g. `"5m"`, `"1h"`). -/
def isIntervalSchedule (s : String) : Bool :=
  (intervalMatch s).isSome

/-- Milliseconds per unit, from the `switch` in `calculateIntervalNextRun`:
seconds, minutes, hours, days; any other unit leaves the time unchanged
(multiplier zero). -/
def unitMs (c : Char) : Int :=
  if c = 's' then 1000
  else if c = 'm' then 60000
  else if c = 'h' then 3600000
  else if c = 'd' then 86400000
  else 0

/-- The interval length in milliseconds denoted by an interval schedule
string (zero for non-matching strings). -/
def intervalMsOf (s : String) : Int :=
  match intervalMatch s with
  | some (amount, u) => (amount : Int) * unitMs u
  | none => 0

/-- `calculateIntervalNextRun`: re-matches the interval pattern, throws
`Invalid interval schedule` when it does not match, and otherwise returns
the current time plus the interval. -/
def calculateIntervalNextRun (s : String) (nowMs : Int) : Except String Int :=
  match intervalMatch s with
  | none => .error ("Invalid interval schedule: " ++ s)
  | some (amount, u) => .ok (nowMs + (amount : Int) * unitMs u)

/-- `calculateNextRun`: interval schedules go through
`calculateIntervalNextRun`; every other schedule string is treated as a
cron expression and the code simply adds one minute to the current time
(the source comments this as a simplified implementation). -/
def calculateNextRun (s : String) (nowMs : Int) : Except String Int :=
  if isIntervalSchedule s then
    calculateIntervalNextRun s nowMs
  else
    .ok (nowMs + 60000)

/-- `calculateDelay`: milliseconds until the next run, floored at zero. -/
def calculateDelay (nextRun nowMs : Int) : Int :=
  max 0 (nextRun - nowMs)

/-! ## Scheduler state (scheduler module) -/

/-- A `Task` as far as the scheduler consumes it: its id, its optional
schedule string and its optional enabled flag. -/
structure Task where
  id : String
  schedule : Option String
  enabled : Option Bool
deriving DecidableEq, Repr

/-- A `ScheduleEntry` of the schedules map. -/
structure ScheduleEntry where
  id : String
  taskId : String
  schedule : String
  nextRun : Int
  lastRun : Option Int
  enabled : Bool
deriving DecidableEq, Repr

/-- Insertion with JavaScript `Map.set` semantics: replace the value in
place when the key is present, append otherwise. -/
def mapSet (l : List (String × α)) (k : String) (v : α) : List (String × α) :=
  match l with
  | [] => [(k, v)]
  | (k', v') :: rest => if k' = k then (k, v) :: rest else (k', v') :: mapSet rest k v

/-- Deletion with JavaScript `Map.delete` semantics. -/
def mapDelete (l : List (String × α)) (k : String) : List (String × α) :=
  match l with
  | [] => []
  | (k', v') :: rest => if k' = k then rest else (k', v') :: mapDelete rest k

/-- The scheduler's module-level state: the `schedules` map and the
`activeIntervals` map.  An armed timeout is modelled by the delay it was
armed with. -/
structure SchedulerState where
  schedules : List (String × ScheduleEntry)
  activeIntervals : List (String × Int)
deriving DecidableEq, Repr

/-- `startSchedule`: if a timer is already active for this entry, return
without touching it (no cancellation, no re-arm); otherwise arm one
timeout for `calculateDelay(entry.nextRun)`. -/
def startSchedule (st : SchedulerState) (entry : ScheduleEntry) (nowMs : Int) :
    SchedulerState :=
  if (st.activeIntervals.lookup entry.id).isSome then
    st
  else
    { st with
      activeIntervals :=
        mapSet st.activeIntervals entry.id (calculateDelay entry.nextRun nowMs) }

/-- `stopSchedule`: clear and remove the timeout for the given schedule id,
when one exists. -/
def stopSchedule (st : SchedulerState) (scheduleId : String) : SchedulerState :=
  { st with activeIntervals := mapDelete st.activeIntervals scheduleId }

/-- `scheduleTask`: throws when `task.schedule` is falsy — the field is
absent or the empty string, the only falsy string — and otherwise builds
the entry with id `schedule-` ++ task id, enabled unless the task is
explicitly disabled, stores it, and starts it when enabled. -/
def scheduleTask (st : SchedulerState) (task : Task) (nowMs : Int) :
    Except String SchedulerState :=
  match task.schedule with
  | none => .error "Task must have a schedule"
  | some s =>
    if s = "" then .error "Task must have a schedule"
    else
      (calculateNextRun s nowMs).map fun nextRun =>
        let entry : ScheduleEntry :=
          { id := "schedule-" ++ task.id
            taskId := task.id
            schedule := s
            nextRun := nextRun
            lastRun := none
            enabled := !(task.enabled == some false) }
        let st' := { st with schedules := mapSet st.schedules entry.id entry }
        if entry.enabled then startSchedule st' entry nowMs else st'

/-- `executeScheduledTask`, as a transformation of the entry it mutates:
sets `lastRun` to the current time and recomputes `nextRun` from the
schedule string at the current time (an exception from the schedule
calculator propagates). -/
def executeScheduledTask (entry : ScheduleEntry) (nowMs : Int) :
    Except String ScheduleEntry :=
  (calculateNextRun entry.schedule nowMs).map fun next =>
    { entry with lastRun := some nowMs, nextRun := next }

/-- The observable operations of the timer callback, in source order. -/
inductive SchedulerOp where
  | setLastRun
  | recomputeNextRun
  | armNextTimer
  | triggerExecution
deriving DecidableEq, BEq, Repr

/-- The order in which `executeScheduledTask` performs its steps: update
`lastRun`, recompute `nextRun`, re-arm the next timeout when the entry is
enabled, and only then trigger the task execution. -/
def executeScheduledTaskTrace (entry : ScheduleEntry) : List SchedulerOp :=
  [.setLastRun, .recomputeNextRun]
    ++ (if entry.enabled then [.armNextTimer] else [])
    ++ [.triggerExecution]

/-! ## Cron service store and catch-up engine

The cron service implementation (the job store of `src/cron/service/store.ts`
and the startup catch-up of `src/cron/service/ops.ts`) is not present in the
tree; only its test suite and the fix notes are.  The definitions below are
therefore modelled from the design document's description of those files. -/

/-- Modelled from the spec: the tagged `schedule` variant of a cron-service
job — `Once { atMs }`, `Every { intervalMs }`, or `Cron { expression }`. -/
inductive CronSchedule where
  | once (atMs : Int)
  | every (intervalMs : Int)
  | cron (expression : String)
deriving DecidableEq, Repr

/-- Modelled from the spec: a job's mutable run-tracking state,
`lastRunAtMs` and `nextRunAtMs`. -/
structure CronJobState where
  lastRunAtMs : Option Int
  nextRunAtMs : Option Int
deriving DecidableEq, Repr

/-- Modelled from the spec: a cron-service job. -/
structure CronJob where
  id : String
  name : String
  enabled : Bool
  schedule : CronSchedule
  state : CronJobState
deriving DecidableEq, Repr

/-- Modelled from the spec: `ensureLoaded` of the cron-service job store
(`src/cron/service/store.ts`, absent from the tree).  If the cache is empty
or `forceReload` is set, the persisted collection replaces the cache; the
freshly loaded jobs are then passed through the store's
recompute-next-runs operation unless `skipRecompute` is set, in which case
the `nextRunAtMs` values are left exactly as persisted.  The
recompute-next-runs operation itself is taken as a parameter: the path
verified here never invokes it. -/
def ensureLoaded (recomputeNextRuns : List CronJob → Int → List CronJob)
    (persisted : List CronJob) (cache : Option (List CronJob))
    (forceReload skipRecompute : Bool) (nowMs : Int) : Option (List CronJob) :=
  if cache.isNone || forceReload then
    some (if skipRecompute then persisted else recomputeNextRuns persisted nowMs)
  else
    cache

/-- Modelled from the spec: the bounded recovery window of the startup
catch-up engine, six hours in milliseconds. -/
def recoveryWindowMs : Int := 6 * 60 * 60 * 1000

/-- Modelled from the spec: the startup catch-up condition of
`src/cron/service/ops.ts` (absent from the tree) — the job is enabled, its
`nextRunAtMs` is in the past, it has run at least once before
(`lastRunAtMs` non-null), and its missed time is within the recovery
window. -/
def catchUpEligible (j : CronJob) (nowMs : Int) : Bool :=
  j.enabled &&
    match j.state.nextRunAtMs with
    | some n =>
        decide (n < nowMs) && j.state.lastRunAtMs.isSome &&
          decide (nowMs - n ≤ recoveryWindowMs)
    | none => false

/-- Modelled from the spec: the jobs the startup catch-up engine executes
immediately (once each, in store order) with the catch-up tag. -/
def startupCatchUp (jobs : List CronJob) (nowMs : Int) : List CronJob :=
  jobs.filter (fun j => catchUpEligible j nowMs)

/-! ## Auxiliary definitions for the statements below -/

/-- An interval schedule whose numeric amount is zero (such as `"0s"`),
the one schedule shape for which the recomputed next run coincides with
the run time. -/
def zeroIntervalSchedule (s : String) : Bool :=
  match intervalMatch s with
  | some (amount, _) => amount = 0
  | none => false

/-- The `nextRun` value the timer callback leaves behind when a firing of
an entry with schedule `s` is processed exactly at time `t` (the canonical
entry stands for any entry with that schedule; `executeScheduledTask`
reads nothing else of it). -/
def fireStep (s : String) (t : Int) : Int :=
  match executeScheduledTask
      { id := "schedule-x", taskId := "x", schedule := s, nextRun := t
        lastRun := none, enabled := true } t with
  | .ok e' => e'.nextRun
  | .error _ => t

/-- The due time reached after `n` consecutive firings of schedule `s`,
starting from a firing processed at time `t`, each subsequent firing being
processed exactly at the due time the previous one computed. -/
def fireTimes (s : String) (t : Int) : Nat → Int
  | 0 => t
  | n + 1 => fireStep s (fireTimes s t n)

/-- Taken from the spec's words, for comparison with the code: the
minute-of-hour of a UTC timestamp in milliseconds (cron evaluation is
minute-granular). -/
def specMinuteOfMs (t : Int) : Int := (t / 60000) % 60

/-- Splitting a character list on single spaces, for reading the
whitespace-separated fields of a cron expression. -/
def splitOnSpace : List Char → List String
  | [] => [""]
  | c :: rest =>
    match splitOnSpace rest with
    | [] => if c = ' ' then [""] else [String.mk [c]]
    | f :: fs =>
      if c = ' ' then "" :: f :: fs else String.mk (c :: f.data) :: fs

/-- Taken from the spec's words: the first of the five cron fields (the
minute field) of a 5-field cron expression. -/
def specMinuteField (expression : String) : String :=
  (splitOnSpace expression.data).headD "*"

/-- Taken from the spec's words: a plain cron field is satisfied by a
value when the field is the wildcard or is the decimal numeral of that
value. -/
def specFieldMatches (field : String) (value : Int) : Bool :=
  field = "*" ||
    (!field.data.isEmpty && field.data.all Char.isDigit &&
      (digitsToNat field.data : Int) = value)

/-! ## Helper lemmas -/

theorem lookup_mapSet_self (l : List (String × α)) (k : String) (v : α) :
    (mapSet l k v).lookup k = some v := by
  induction l with
  | nil => simp [mapSet]
  | cons p rest ih =>
    obtain ⟨k', v'⟩ := p
    by_cases h : k' = k
    · subst h; simp [mapSet]
    · have hb : (k == k') = false := beq_eq_false_iff_ne.mpr (Ne.symm h)
      simp [mapSet, h, List.lookup_cons, hb, ih]

theorem lookup_mapSet_ne (l : List (String × α)) (k k' : String) (v : α)
    (h : k' ≠ k) : (mapSet l k v).lookup k' = l.lookup k' := by
  have hb : (k' == k) = false := beq_eq_false_iff_ne.mpr h
  induction l with
  | nil => simp [mapSet, List.lookup_cons, hb]
  | cons p rest ih =>
    obtain ⟨k₀, v₀⟩ := p
    by_cases h0 : k₀ = k
    · subst h0; simp [mapSet, List.lookup_cons, hb]
    · by_cases h1 : k' = k₀
      · subst h1; simp [mapSet, h0, List.lookup_cons]
      · have hb1 : (k' == k₀) = false := beq_eq_false_iff_ne.mpr h1
        simp [mapSet, h0, List.lookup_cons, hb1, ih]

theorem not_mem_keys_of_lookup_none (l : List (String × α)) (k : String)
    (h : l.lookup k = none) : k ∉ l.map Prod.fst := by
  rw [List.lookup_eq_none_iff] at h
  intro hk
  obtain ⟨p, hp, hpe⟩ := List.mem_map.mp hk
  have hne := h p hp
  simp [bne, hpe] at hne

theorem mapSet_of_not_mem_keys {l : List (String × α)} {k : String} (v : α)
    (h : k ∉ l.map Prod.fst) : mapSet l k v = l ++ [(k, v)] := by
  induction l with
  | nil => rfl
  | cons p rest ih =>
    obtain ⟨k', v'⟩ := p
    simp only [List.map_cons, List.mem_cons, not_or] at h
    have hne : ¬k' = k := fun e => h.1 e.symm
    simp only [mapSet, if_neg hne, List.cons_append, ih h.2]

theorem length_mapSet_of_lookup_none (l : List (String × α)) (k : String)
    (v : α) (h : l.lookup k = none) : (mapSet l k v).length = l.length + 1 := by
  rw [mapSet_of_not_mem_keys v (not_mem_keys_of_lookup_none l k h)]
  simp

theorem keys_mapSet_of_lookup_none (l : List (String × α)) (k : String)
    (v : α) (h : l.lookup k = none) :
    (mapSet l k v).map Prod.fst = l.map Prod.fst ++ [k] := by
  rw [mapSet_of_not_mem_keys v (not_mem_keys_of_lookup_none l k h)]
  simp

theorem intervalMatch_unit {s : String} {a : Nat} {u : Char}
    (h : intervalMatch s = some (a, u)) : isUnitChar u = true := by
  unfold intervalMatch at h
  cases hrev : s.data.reverse with
  | nil => rw [hrev] at h; cases h
  | cons c rest =>
    rw [hrev] at h
    simp only at h
    split at h
    · rcases h with ⟨rfl, rfl⟩
      rename_i hcond
      exact (Bool.and_eq_true ..|>.mp (Bool.and_eq_true ..|>.mp hcond).1).1
    · cases h

theorem unitMs_ge_1000 {u : Char} (h : isUnitChar u = true) :
    1000 ≤ unitMs u := by
  have h' : u = 's' ∨ u = 'm' ∨ u = 'h' ∨ u = 'd' := by
    simp only [isUnitChar, Bool.or_eq_true, decide_eq_true_eq] at h
    tauto
  rcases h' with rfl | rfl | rfl | rfl <;> decide

theorem calculateIntervalNextRun_of_match {s : String} {a : Nat} {u : Char}
    (h : intervalMatch s = some (a, u)) (nowMs : Int) :
    calculateIntervalNextRun s nowMs = .ok (nowMs + intervalMsOf s) := by
  simp [calculateIntervalNextRun, intervalMsOf, h]

theorem calculateNextRun_interval {s : String}
    (h : isIntervalSchedule s = true) (nowMs : Int) :
    calculateNextRun s nowMs = .ok (nowMs + intervalMsOf s) := by
  unfold calculateNextRun
  rw [if_pos h]
  obtain ⟨⟨a, u⟩, hm⟩ := Option.isSome_iff_exists.mp h
  exact calculateIntervalNextRun_of_match hm nowMs

theorem calculateNextRun_not_interval {s : String}
    (h : isIntervalSchedule s = false) (nowMs : Int) :
    calculateNextRun s nowMs = .ok (nowMs + 60000) := by
  unfold calculateNextRun
  rw [if_neg (by simp [h])]

theorem calculateNextRun_isOk (s : String) (nowMs : Int) :
    ∃ v, calculateNextRun s nowMs = .ok v := by
  cases hi : isIntervalSchedule s with
  | true => exact ⟨_, calculateNextRun_interval hi nowMs⟩
  | false => exact ⟨_, calculateNextRun_not_interval hi nowMs⟩

theorem startSchedule_schedules (st : SchedulerState) (e : ScheduleEntry)
    (nowMs : Int) : (startSchedule st e nowMs).schedules = st.schedules := by
  unfold startSchedule
  split <;> rfl

theorem scheduleTask_schedules (st : SchedulerState) (task : Task)
    (s : String) (nowMs v : Int) (hs : task.schedule = some s) (hne : s ≠ "")
    (hv : calculateNextRun s nowMs = .ok v) :
    (scheduleTask st task nowMs).map SchedulerState.schedules =
      .ok (mapSet st.schedules ("schedule-" ++ task.id)
        ⟨"schedule-" ++ task.id, task.id, s, v, none,
          !(task.enabled == some false)⟩) := by
  unfold scheduleTask
  rw [hs]
  dsimp only
  rw [if_neg hne, hv]
  dsimp only [Except.map]
  by_cases he : (!(task.enabled == some false)) = true
  · rw [if_pos he, startSchedule_schedules]
  · rw [if_neg he]

theorem scheduleTask_ok_schedules (st : SchedulerState) (task : Task)
    (s : String) (nowMs v : Int) (hs : task.schedule = some s) (hne : s ≠ "")
    (hv : calculateNextRun s nowMs = .ok v) :
    ∃ st', scheduleTask st task nowMs = .ok st' ∧
      st'.schedules = mapSet st.schedules ("schedule-" ++ task.id)
        ⟨"schedule-" ++ task.id, task.id, s, v, none,
          !(task.enabled == some false)⟩ := by
  have h := scheduleTask_schedules st task s nowMs v hs hne hv
  cases hr : scheduleTask st task nowMs with
  | error err => rw [hr] at h; cases h
  | ok st' =>
    rw [hr] at h
    simp only [Except.map, Except.ok.injEq] at h
    exact ⟨st', rfl, h⟩

theorem count_filter_eq {α : Type} [DecidableEq α] (p : α → Bool)
    (l : List α) (a : α) :
    (l.filter p).count a = if p a = true then l.count a else 0 := by
  induction l with
  | nil => simp
  | cons x xs ih =>
    by_cases hx : p x = true
    · rw [List.filter_cons_of_pos hx, List.count_cons, List.count_cons, ih]
      by_cases hax : (x == a) = true
      · have hpa : p a = true := beq_iff_eq.mp hax ▸ hx
        simp [hpa, hax]
      · simp only [hax, if_false]
        by_cases hpa : p a = true <;> simp [hpa]
    · rw [List.filter_cons_of_neg hx, ih, List.count_cons]
      by_cases hax : (x == a) = true
      · have hxa : x = a := beq_iff_eq.mp hax
        subst hxa
        simp [hx]
      · simp [hax]

theorem fireStep_interval {s : String} (h : isIntervalSchedule s = true)
    (t : Int) : fireStep s t = t + intervalMsOf s := by
  unfold fireStep executeScheduledTask
  dsimp only
  rw [calculateNextRun_interval h]
  rfl

/-! ## Claim theorems -/

/-- C9 (confirmed): the delay used to arm a wake-up timer equals
`max 0 (nextRun - now)`: it is never negative, it is zero whenever the due
time is not in the future, and `startSchedule` arms exactly this delay for
an entry with no active timer. -/
theorem calculateDelay_max_zero (nextRun nowMs : Int) :
    calculateDelay nextRun nowMs = max 0 (nextRun - nowMs) ∧
    0 ≤ calculateDelay nextRun nowMs ∧
    (nextRun ≤ nowMs → calculateDelay nextRun nowMs = 0) ∧
    (∀ (st : SchedulerState) (e : ScheduleEntry),
      st.activeIntervals.lookup e.id = none → e.nextRun = nextRun →
      (startSchedule st e nowMs).activeIntervals.lookup e.id =
        some (calculateDelay nextRun nowMs)) := by
  refine ⟨rfl, le_max_left 0 _, fun h => ?_, fun st e hl he => ?_⟩
  · unfold calculateDelay
    exact max_eq_left (by omega)
  · subst he
    unfold startSchedule
    rw [hl]
    simp only [Option.isSome_none, Bool.false_eq_true, if_false]
    exact lookup_mapSet_self st.activeIntervals e.id _

/-- Witness for C9: a due time five milliseconds before `now` yields a
zero delay. -/
theorem calculateDelay_max_zero_witness : calculateDelay 5 10 = 0 :=
  (calculateDelay_max_zero 5 10).2.2.1 (by decide)

/-- C2 (confirmed, store modelled from the spec): loading with
`forceReload` and `skipRecompute` both set yields exactly the persisted
collection, so no job's `nextRunAtMs` differs from what was last
persisted. -/
theorem ensureLoaded_skip_preserves_nextRun
    (recomputeNextRuns : List CronJob → Int → List CronJob)
    (persisted : List CronJob) (cache : Option (List CronJob)) (nowMs : Int) :
    ensureLoaded recomputeNextRuns persisted cache true true nowMs =
      some persisted ∧
    ((ensureLoaded recomputeNextRuns persisted cache true true nowMs).getD
          []).map (fun j => j.state.nextRunAtMs) =
      persisted.map (fun j => j.state.nextRunAtMs) := by
  constructor <;> simp [ensureLoaded]

/-- C1 (code bug): for an enabled entry processed by the timer callback,
`executeScheduledTask` recomputes `nextRun` (and re-arms the next timer)
strictly before triggering the task execution for that firing, whereas the
claim requires recomputation only after the execution. -/
theorem executeScheduledTask_recomputes_before_execution :
    executeScheduledTaskTrace
        ⟨"schedule-t1", "t1", "5m", 300000, none, true⟩ =
      [.setLastRun, .recomputeNextRun, .armNextTimer, .triggerExecution] ∧
    List.indexOf SchedulerOp.recomputeNextRun
        (executeScheduledTaskTrace
          ⟨"schedule-t1", "t1", "5m", 300000, none, true⟩) <
      List.indexOf SchedulerOp.triggerExecution
        (executeScheduledTaskTrace
          ⟨"schedule-t1", "t1", "5m", 300000, none, true⟩) := by
  exact ⟨rfl, by decide⟩

/-- C4 (counterexample): for the well-formed cron expression
`"0 0 * * *"` and reference time `0`, the calculator returns `60000`,
whose minute-of-hour is `1`; the expression's minute field is `"0"`, which
`1` does not satisfy — so the returned timestamp does not satisfy all five
cron fields. -/
theorem calculateNextRun_cron_counterexample :
    calculateNextRun "0 0 * * *" 0 = .ok 60000 ∧
    specMinuteField "0 0 * * *" = "0" ∧
    specMinuteOfMs 60000 = 1 ∧
    specFieldMatches (specMinuteField "0 0 * * *") (specMinuteOfMs 60000) =
      false :=
  ⟨rfl, rfl, rfl, rfl⟩

/-- C4 (amended): for every schedule string that is not an interval
schedule, the calculator ignores the cron fields entirely and returns the
reference time plus one minute; the result is strictly greater than the
reference but need not satisfy the expression's five fields, and no
malformed expression is rejected. -/
theorem calculateNextRun_cron_one_minute (s : String) (t : Int)
    (h : isIntervalSchedule s = false) :
    calculateNextRun s t = .ok (t + 60000) ∧ t < t + 60000 :=
  ⟨calculateNextRun_not_interval h t, by omega⟩

/-- Witness for the amended C4 at the every-minute cron expression. -/
theorem calculateNextRun_cron_one_minute_witness :
    calculateNextRun "* * * * *" 0 = .ok 60000 :=
  (calculateNextRun_cron_one_minute "* * * * *" 0 rfl).1

/-- C8 (counterexample): the interval schedule `"0s"` denotes
`intervalMs = 0 ≤ 0`, yet the next-run computation succeeds (returning the
reference time unchanged) instead of failing with an invalid-schedule
error. -/
theorem calculateIntervalNextRun_zero_succeeds :
    intervalMsOf "0s" = 0 ∧
    calculateIntervalNextRun "0s" 1000 = .ok 1000 :=
  ⟨rfl, rfl⟩

/-- C8 (amended): the interval next-run computation succeeds on every
string matching the interval pattern — including zero amounts, the only
non-positive intervals representable — returning the reference plus the
interval, and fails with the invalid-schedule error exactly on
non-matching strings. -/
theorem calculateIntervalNextRun_total (s : String) (nowMs : Int) :
    (isIntervalSchedule s = true →
      calculateIntervalNextRun s nowMs = .ok (nowMs + intervalMsOf s)) ∧
    (isIntervalSchedule s = false →
      calculateIntervalNextRun s nowMs =
        .error ("Invalid interval schedule: " ++ s)) := by
  constructor
  · intro h
    obtain ⟨⟨a, u⟩, hm⟩ := Option.isSome_iff_exists.mp h
    exact calculateIntervalNextRun_of_match hm nowMs
  · intro h
    unfold isIntervalSchedule at h
    unfold calculateIntervalNextRun
    cases hm : intervalMatch s with
    | none => rfl
    | some p => rw [hm] at h; cases h

/-- Witness for the amended C8 at the five-minute interval schedule. -/
theorem calculateIntervalNextRun_total_witness :
    calculateIntervalNextRun "5m" 0 = .ok (0 + intervalMsOf "5m") :=
  (calculateIntervalNextRun_total "5m" 0).1 rfl

/-- C6 (counterexample): a due entry with schedule `"0s"` processed by the
timer callback at `now = 1000` ends with `lastRun = 1000` and
`nextRun = 1000` as well, so `nextRunAtMs` is not strictly greater than
`lastRunAtMs`. -/
theorem executeScheduledTask_zero_interval_counterexample :
    executeScheduledTask ⟨"schedule-t0", "t0", "0s", 1000, none, true⟩ 1000 =
      .ok ⟨"schedule-t0", "t0", "0s", 1000, some 1000, true⟩ ∧
    ¬((1000 : Int) < 1000) :=
  ⟨rfl, by omega⟩

/-- C6 (amended): after the timer callback processes a due entry,
`lastRun` equals the tick's `now`; and provided the schedule is not a
zero-amount interval (such as `"0s"`), the recomputed `nextRun` is
strictly greater than `lastRun`. -/
theorem executeScheduledTask_state (e : ScheduleEntry) (nowMs : Int)
    (e' : ScheduleEntry) (h : executeScheduledTask e nowMs = .ok e')
    (hz : zeroIntervalSchedule e.schedule = false) :
    e'.lastRun = some nowMs ∧ nowMs < e'.nextRun := by
  unfold executeScheduledTask at h
  cases hm : intervalMatch e.schedule with
  | none =>
    have hi : isIntervalSchedule e.schedule = false := by
      simp [isIntervalSchedule, hm]
    rw [calculateNextRun_not_interval hi] at h
    simp only [Except.map, Except.ok.injEq] at h
    subst h
    exact ⟨rfl, by simp⟩
  | some au =>
    obtain ⟨a, u⟩ := au
    have hi : isIntervalSchedule e.schedule = true := by
      simp [isIntervalSchedule, hm]
    rw [calculateNextRun_interval hi] at h
    simp only [Except.map, Except.ok.injEq] at h
    subst h
    refine ⟨rfl, ?_⟩
    have ha : a ≠ 0 := by
      unfold zeroIntervalSchedule at hz
      rw [hm] at hz
      simpa using hz
    have hu : 1000 ≤ unitMs u := unitMs_ge_1000 (intervalMatch_unit hm)
    have ha1 : (1 : Int) ≤ (a : Int) := by
      exact_mod_cast Nat.one_le_iff_ne_zero.mpr ha
    have : (1 : Int) * unitMs u ≤ (a : Int) * unitMs u :=
      mul_le_mul_of_nonneg_right ha1 (by omega)
    have hms : intervalMsOf e.schedule = (a : Int) * unitMs u := by
      unfold intervalMsOf
      rw [hm]
    simp only [hms]
    omega

/-- Witness for the amended C6: a five-minute entry processed at `now = 0`
ends with `lastRun = 0` and `nextRun = 300000 > 0`. -/
theorem executeScheduledTask_state_witness :
    (⟨"schedule-t1", "t1", "5m", 300000, some 0, true⟩ :
        ScheduleEntry).lastRun = some 0 ∧
    (0 : Int) < (⟨"schedule-t1", "t1", "5m", 300000, some 0, true⟩ :
        ScheduleEntry).nextRun :=
  executeScheduledTask_state ⟨"schedule-t1", "t1", "5m", 0, none, true⟩ 0
    ⟨"schedule-t1", "t1", "5m", 300000, some 0, true⟩ rfl rfl

/-- C7 (counterexample): scheduling two enabled tasks leaves two
outstanding timers at once — one per schedule entry — refuting "at most
one wake-up timer outstanding for the whole scheduler"; arming the second
timer did not cancel the first. -/
theorem scheduler_two_outstanding_timers :
    ((scheduleTask ⟨[], []⟩ ⟨"t1", some "5m", none⟩ 0).toOption.map
        fun st => st.activeIntervals.length) = some 1 ∧
    (((scheduleTask ⟨[], []⟩ ⟨"t1", some "5m", none⟩ 0).bind
          fun st => scheduleTask st ⟨"t2", some "5m", none⟩ 0).toOption.map
        fun st => st.activeIntervals.length) = some 2 :=
  ⟨rfl, rfl⟩

/-- C7 (amended): the at-most-one-timer discipline holds per schedule
entry, not for the scheduler as a whole: `startSchedule` leaves the state
untouched when a timer for the entry is already armed (the old timer is
kept; nothing is cancelled or re-armed), and arming never creates a second
timer for the same entry id. -/
theorem startSchedule_per_entry (st : SchedulerState) (e : ScheduleEntry)
    (nowMs : Int) :
    ((st.activeIntervals.lookup e.id).isSome = true →
      startSchedule st e nowMs = st) ∧
    ((st.activeIntervals.map Prod.fst).Nodup →
      ((startSchedule st e nowMs).activeIntervals.map Prod.fst).Nodup) := by
  constructor
  · intro h
    unfold startSchedule
    rw [if_pos h]
  · intro hnd
    unfold startSchedule
    by_cases h : (st.activeIntervals.lookup e.id).isSome = true
    · rw [if_pos h]; exact hnd
    · rw [if_neg h]
      have hl : st.activeIntervals.lookup e.id = none := by
        cases hlk : st.activeIntervals.lookup e.id with
        | none => rfl
        | some w => rw [hlk] at h; simp at h
      dsimp only
      rw [keys_mapSet_of_lookup_none _ _ _ hl]
      refine List.Nodup.append hnd (List.nodup_singleton _) ?_
      intro a ha hb
      rw [List.mem_singleton] at hb
      subst hb
      exact not_mem_keys_of_lookup_none _ _ hl ha

/-- Witness for the amended C7: with a timer already armed for the entry,
`startSchedule` is the identity. -/
theorem startSchedule_per_entry_witness :
    startSchedule ⟨[], [("schedule-t1", 5)]⟩
        ⟨"schedule-t1", "t1", "5m", 300000, none, true⟩ 0 =
      ⟨[], [("schedule-t1", 5)]⟩ :=
  (startSchedule_per_entry ⟨[], [("schedule-t1", 5)]⟩
      ⟨"schedule-t1", "t1", "5m", 300000, none, true⟩ 0).1 rfl

/-- C10 (counterexample): a task whose schedule field is present but
empty is rejected by the source's falsy check — `scheduleTask` throws and
adds no entry — refuting "for every task with a schedule field, it adds
exactly one schedule entry". -/
theorem scheduleTask_empty_schedule_counterexample :
    (⟨"t1", some "", none⟩ : Task).schedule = some "" ∧
    scheduleTask ⟨[], []⟩ ⟨"t1", some "", none⟩ 0 =
      .error "Task must have a schedule" :=
  ⟨rfl, rfl⟩

/-- C10 (amended): a task whose schedule field is absent or empty (falsy)
is rejected with an error, adding nothing; a task with a non-empty
schedule gets exactly one schedule entry, keyed and identified by
`schedule-` followed by the task id, enabled unless the task's enabled
field is explicitly `false`, with every other entry left untouched. -/
theorem scheduleTask_spec (st : SchedulerState) (task : Task) (nowMs : Int) :
    ((task.schedule = none ∨ task.schedule = some "") →
      scheduleTask st task nowMs = .error "Task must have a schedule") ∧
    (∀ s, task.schedule = some s → s ≠ "" →
      ∃ st', scheduleTask st task nowMs = .ok st' ∧
        (∃ e, st'.schedules.lookup ("schedule-" ++ task.id) = some e ∧
          e.id = "schedule-" ++ task.id ∧ e.taskId = task.id ∧
          e.schedule = s ∧ e.enabled = !(task.enabled == some false)) ∧
        (∀ k, k ≠ "schedule-" ++ task.id →
          st'.schedules.lookup k = st.schedules.lookup k) ∧
        (st.schedules.lookup ("schedule-" ++ task.id) = none →
          st'.schedules.length = st.schedules.length + 1)) := by
  constructor
  · intro h
    unfold scheduleTask
    rcases h with h | h
    · rw [h]
    · rw [h]
      dsimp only
      rw [if_pos rfl]
  · intro s hs hne
    obtain ⟨v, hv⟩ := calculateNextRun_isOk s nowMs
    obtain ⟨st', hok, hsch⟩ :=
      scheduleTask_ok_schedules st task s nowMs v hs hne hv
    refine ⟨st', hok,
      ⟨⟨"schedule-" ++ task.id, task.id, s, v, none,
          !(task.enabled == some false)⟩, ?_, rfl, rfl, rfl, rfl⟩, ?_, ?_⟩
    · rw [hsch]
      exact lookup_mapSet_self st.schedules _ _
    · intro k hk
      rw [hsch]
      exact lookup_mapSet_ne st.schedules _ k _ hk
    · intro hnone
      rw [hsch]
      exact length_mapSet_of_lookup_none st.schedules _ _ hnone

/-- Witness for the amended C10: a task without a schedule field is
rejected. -/
theorem scheduleTask_spec_witness :
    scheduleTask ⟨[], []⟩ ⟨"t1", none, none⟩ 0 =
      .error "Task must have a schedule" :=
  (scheduleTask_spec ⟨[], []⟩ ⟨"t1", none, none⟩ 0).1 (Or.inl rfl)

/-- C5 (confirmed): an interval job fired at time `t` gets
`nextRun = t + intervalMs` exactly (the recomputation reads the clock at
the moment the firing is processed, which is the run time), and iterating
over `n` consecutive firings each processed at its due time reaches
`t + n * intervalMs` with no drift. -/
theorem every_interval_no_drift (s : String) (t : Int) (n : Nat)
    (hs : isIntervalSchedule s = true) (hpos : 0 < intervalMsOf s) :
    (∀ e : ScheduleEntry, e.schedule = s →
      executeScheduledTask e t =
        .ok { e with lastRun := some t, nextRun := t + intervalMsOf s }) ∧
    fireTimes s t n = t + n * intervalMsOf s := by
  constructor
  · intro e he
    unfold executeScheduledTask
    rw [he, calculateNextRun_interval hs]
    rfl
  · induction n with
    | zero => simp [fireTimes]
    | succ m ih =>
      show fireStep s (fireTimes s t m) = t + ((m : Int) + 1) * intervalMsOf s
      rw [fireStep_interval hs, ih]
      ring

/-- Witness for C5: three firings of a five-minute job starting at `0`
land at `900000`. -/
theorem every_interval_no_drift_witness :
    fireTimes "5m" 0 3 = 0 + (3 : Nat) * intervalMsOf "5m" :=
  (every_interval_no_drift "5m" 0 3 rfl (by decide)).2

/-- C3 (confirmed, catch-up engine modelled from the spec): an enabled job
whose persisted `nextRunAtMs` is in the past is caught up at startup
exactly once if and only if it has a non-null `lastRunAtMs` and its missed
time is within the six-hour recovery window; otherwise it gets no catch-up
execution. -/
theorem startupCatchUp_iff (jobs : List CronJob) (j : CronJob) (n nowMs : Int)
    (hen : j.enabled = true) (hnext : j.state.nextRunAtMs = some n)
    (hpast : n < nowMs) (honce : jobs.count j = 1) :
    ((startupCatchUp jobs nowMs).count j = 1 ↔
      (j.state.lastRunAtMs.isSome = true ∧ nowMs - n ≤ recoveryWindowMs)) ∧
    ((startupCatchUp jobs nowMs).count j = 0 ↔
      ¬(j.state.lastRunAtMs.isSome = true ∧ nowMs - n ≤ recoveryWindowMs)) := by
  have hel : catchUpEligible j nowMs =
      (j.state.lastRunAtMs.isSome && decide (nowMs - n ≤ recoveryWindowMs)) := by
    unfold catchUpEligible
    rw [hnext, hen]
    simp [hpast]
  have hcount : (startupCatchUp jobs nowMs).count j =
      if catchUpEligible j nowMs = true then 1 else 0 := by
    unfold startupCatchUp
    rw [count_filter_eq (fun x => catchUpEligible x nowMs) jobs j, honce]
  rw [hcount]
  by_cases hc : j.state.lastRunAtMs.isSome = true ∧ nowMs - n ≤ recoveryWindowMs
  · rw [if_pos (by rw [hel]; simp [hc.1, hc.2])]
    exact ⟨⟨fun _ => hc, fun _ => rfl⟩,
      ⟨fun h0 => absurd h0 (by decide), fun hnp => absurd hc hnp⟩⟩
  · rw [if_neg (by
      rw [hel]
      intro hx
      obtain ⟨h1, h2⟩ := Bool.and_eq_true .. |>.mp hx
      exact hc ⟨h1, of_decide_eq_true h2⟩)]
    exact ⟨⟨fun h0 => absurd h0 (by decide), fun hp => absurd hp hc⟩,
      ⟨fun _ => hc, fun _ => rfl⟩⟩

/-- Witness for C3: a job that ran before and missed its due time by 100
milliseconds is caught up exactly once at startup. -/
theorem startupCatchUp_iff_witness :
    (startupCatchUp
        [⟨"j1", "missed", true, .every 60000, ⟨some 0, some 100⟩⟩] 200).count
      ⟨"j1", "missed", true, .every 60000, ⟨some 0, some 100⟩⟩ = 1 :=
  ((startupCatchUp_iff
      [⟨"j1", "missed", true, .every 60000, ⟨some 0, some 100⟩⟩]
      ⟨"j1", "missed", true, .every 60000, ⟨some 0, some 100⟩⟩ 100 200 rfl rfl
      (by decide) (by decide)).1).mpr ⟨rfl, by decide⟩

end Openclaw
